import Mathlib

/-!
Shallow embedding of src/auto-commit.py (class GitCommitHelper).

The program is sequential glue code around external effects: reading one
environment variable, spawning git subprocesses, reading files, one network
call to a text-generation service, and one interactive confirmation read.
We model every external interaction as a field of a `World` value and the
program as a pure function from a `World` to a trace of observable events
together with a final outcome (normal return, `sys.exit(code)`, or an
uncaught Python exception).

Dynamic typing matters here: `get_commit_message_from_claude` returns
`message.content` (a list of content blocks) on success but a plain string
(the fallback message) on failure, and `run` subscripts the result with
`[0].text`.  We model the returned value as a sum type `MessageVal` and
the subscript-and-attribute access as a fallible operation, exactly as the
Python runtime would resolve it.
-/

/-- One element of `message.content` returned by the remote service; the
code accesses its `text` attribute. -/
structure ContentBlock where
  text : String
deriving DecidableEq, Repr

/-- One staged file as collected by `get_staged_changes`: the tuple
`(file_path, diff, file_content)`. -/
structure ChangeRecord where
  path : String
  diff : String
  content : String
deriving DecidableEq, Repr

/-- Result of one subprocess invocation: normal output, a nonzero exit
(Python raises `subprocess.CalledProcessError`), or a missing executable
(Python raises `FileNotFoundError`). -/
inductive ProcResult where
  | ok (output : String)
  | calledProcessError
  | fileNotFoundError
deriving DecidableEq, Repr

/-- All external inputs of one program execution. -/
structure World where
  /-- `os.getenv` result for ANTHROPIC_API_KEY; `none` when unset. -/
  apiKey : Option String
  /-- Result of `git diff --cached --name-only`. -/
  nameOnly : ProcResult
  /-- Result of `git diff --cached <path>` for each path. -/
  diffOf : String → ProcResult
  /-- Result of `open(path).read()`; `none` when reading raises. -/
  readFileResult : String → Option String
  /-- Result of `anthropic.messages.create`: the content-block list, or the
  text of the raised exception. -/
  apiResult : Except String (List ContentBlock)
  /-- The line typed at the confirmation prompt. -/
  userInput : String
  /-- Result of `git commit -m <message>`. -/
  commitResult : ProcResult
  /-- Result of `git commit -e`. -/
  commitEditResult : ProcResult

/-- Observable events of one execution, in order. -/
inductive Event where
  | gitNameOnly
  | gitDiff (path : String)
  | apiCall (prompt : String)
  | printed (s : String)
  | readInput
  | gitCommit (message : String)
  | writeEditMsg (text : String)
  | gitCommitEdit
deriving DecidableEq, Repr

/-- How one execution ends: `run` returned normally (the script then exits
with code 0), `sys.exit(code)` was called, or a Python exception escaped
uncaught (the interpreter prints a traceback and exits nonzero). -/
inductive Outcome where
  | finished
  | exited (code : Nat)
  | crashed (exc : String)
deriving DecidableEq, Repr

/-- Python truthiness of `os.getenv`: `None` and the empty string are
falsy. -/
def truthy : Option String → Bool
  | none => false
  | some s => !(s == "")

/-- Python `str.split` on a single newline separator, over the character
list: the empty string yields one empty field, and every newline starts a
new field. -/
def pySplitNlAux : List Char → List String
  | [] => [""]
  | c :: cs =>
    if c = '\n' then "" :: pySplitNlAux cs
    else
      match pySplitNlAux cs with
      | [] => [String.mk [c]]
      | s :: rest => String.mk (c :: s.data) :: rest

/-- Python semantics of `output.split('\n')`. -/
def pySplitNl (s : String) : List String := pySplitNlAux s.data

/-- Result of `get_staged_changes`: the collected records, or the caught
`CalledProcessError` handler (which prints and calls `sys.exit(1)`), or an
uncaught exception. -/
inductive CollectResult where
  | ok (changes : List ChangeRecord)
  | exitOne
  | crash (exc : String)
deriving DecidableEq, Repr

/-- The per-file loop of `get_staged_changes`: for each staged path run
`git diff --cached <path>`, then read the file content, substituting the
empty string when the read raises.  A `CalledProcessError` from the diff
subprocess propagates to the enclosing handler (print and exit 1); a
`FileNotFoundError` is uncaught. -/
def collectLoop (w : World) : List String → List Event × CollectResult
  | [] => ([], CollectResult.ok [])
  | p :: rest =>
    match w.diffOf p with
    | ProcResult.fileNotFoundError =>
        ([Event.gitDiff p], CollectResult.crash "FileNotFoundError")
    | ProcResult.calledProcessError =>
        ([Event.gitDiff p,
          Event.printed "Error: Not a git repository or git is not installed"],
         CollectResult.exitOne)
    | ProcResult.ok d =>
        let content := (w.readFileResult p).getD ""
        let tail := collectLoop w rest
        (Event.gitDiff p :: tail.1,
         match tail.2 with
         | CollectResult.ok cs =>
             CollectResult.ok ({ path := p, diff := d, content := content } :: cs)
         | r => r)

/-- `GitCommitHelper.get_staged_changes`: list staged paths (split on
newline, empty entries filtered out), then run the per-file loop. -/
def get_staged_changes (w : World) : List Event × CollectResult :=
  match w.nameOnly with
  | ProcResult.fileNotFoundError =>
      ([Event.gitNameOnly], CollectResult.crash "FileNotFoundError")
  | ProcResult.calledProcessError =>
      ([Event.gitNameOnly,
        Event.printed "Error: Not a git repository or git is not installed"],
       CollectResult.exitOne)
  | ProcResult.ok out =>
      let staged := (pySplitNl out).filter (fun f => f != "")
      let tail := collectLoop w staged
      (Event.gitNameOnly :: tail.1, tail.2)

/-- The fixed instruction header of the prompt (the triple-quoted Python
string, byte for byte, including the indentation of the source lines). -/
def promptHeader : String :=
  "You are a helpful assistant that generates descriptive git commit messages. \n"
  ++ "        Analyze the following changes and generate a clear, informative commit message that describes what was changed and why.\n"
  ++ "        Focus on the functional changes and their impact. Use the active voice and present tense.\n"
  ++ "\n"
  ++ "        Just answer directly with the commit text.\n"
  ++ "        \n"
  ++ "        The commit message should follow this format:\n"
  ++ "        - First line: Short summary (50-72 characters)\n"
  ++ "        - Second line: Blank\n"
  ++ "        - Following lines: Detailed explanation if needed\n"
  ++ "        \n"
  ++ "        Here are the changes:\n\n"

/-- The fixed closing instruction appended after the per-file sections. -/
def promptFooter : String :=
  "\nBased on these changes, generate a commit message that explains what was changed and why."

/-- `GitCommitHelper.prepare_claude_prompt`: header, then for each record
the three `prompt +=` lines, then the closing instruction. -/
def prepare_claude_prompt (changes : List ChangeRecord) : String :=
  (changes.foldl
    (fun prompt c =>
      ((prompt ++ ("File: " ++ c.path ++ "\n"))
        ++ ("Diff:\n" ++ c.diff ++ "\n"))
        ++ ("Current file content:\n" ++ c.content ++ "\n\n"))
    promptHeader)
  ++ promptFooter

/-- `GitCommitHelper.generate_fallback_message`: for exactly one record,
"Update " followed by its path; otherwise "Update N files". -/
def generate_fallback_message (changes : List ChangeRecord) : String :=
  match changes with
  | [c] => "Update " ++ c.path
  | _ => "Update " ++ toString changes.length ++ " files"

/-- The dynamically-typed value bound to `commit_message` in `run`: the
content-block list from the API on success, or the fallback string. -/
inductive MessageVal where
  | apiContent (blocks : List ContentBlock)
  | fallback (s : String)
deriving DecidableEq, Repr

/-- `GitCommitHelper.get_commit_message_from_claude`: build the prompt,
call the service; on any exception print a diagnostic and return the
fallback string instead. -/
def get_commit_message_from_claude (w : World) (changes : List ChangeRecord) :
    List Event × MessageVal :=
  let prompt := prepare_claude_prompt changes
  match w.apiResult with
  | Except.ok blocks => ([Event.apiCall prompt], MessageVal.apiContent blocks)
  | Except.error e =>
      ([Event.apiCall prompt, Event.printed ("Error calling Claude API: " ++ e)],
       MessageVal.fallback (generate_fallback_message changes))

/-- Python evaluation of `commit_message[0].text`.  On a content-block
list: `IndexError` if empty, else the text of the first block.  On a
string: `IndexError` if empty, else the subscript yields a one-character
string, which has no `text` attribute, so `AttributeError` is raised. -/
def indexZeroText : MessageVal → Except String String
  | MessageVal.apiContent [] => Except.error "IndexError"
  | MessageVal.apiContent (b :: _) => Except.ok b.text
  | MessageVal.fallback s =>
      if s == "" then Except.error "IndexError" else Except.error "AttributeError"

/-- Python semantics of `confirmation.lower()` for the inputs the program
compares against (ASCII case folding). -/
def pyLower (s : String) : String := String.mk (s.data.map Char.toLower)

/-- `GitCommitHelper.create_commit`: run `git commit -m <message>`; on
`CalledProcessError` print and `sys.exit(1)`; `FileNotFoundError` is
uncaught. -/
def create_commit (w : World) (message : String) : List Event × Outcome :=
  match w.commitResult with
  | ProcResult.ok _ =>
      ([Event.gitCommit message,
        Event.printed ("Successfully created commit with message:\n" ++ message)],
       Outcome.finished)
  | ProcResult.calledProcessError =>
      ([Event.gitCommit message, Event.printed "Error: Failed to create commit"],
       Outcome.exited 1)
  | ProcResult.fileNotFoundError =>
      ([Event.gitCommit message], Outcome.crashed "FileNotFoundError")

/-- `GitCommitHelper.run` (the `__main__` entry constructs the helper,
which merely stores the Anthropic client, then calls `run`). -/
def run (w : World) : List Event × Outcome :=
  if !(truthy w.apiKey) then
    ([Event.printed "Error: ANTHROPIC_API_KEY environment variable not set"],
     Outcome.exited 1)
  else
    let gsc := get_staged_changes w
    match gsc.2 with
    | CollectResult.exitOne => (gsc.1, Outcome.exited 1)
    | CollectResult.crash e => (gsc.1, Outcome.crashed e)
    | CollectResult.ok changes =>
      if changes.isEmpty then
        (gsc.1 ++ [Event.printed "No changes staged for commit"], Outcome.exited 0)
      else
        let gen := get_commit_message_from_claude w changes
        let evs := gsc.1 ++ gen.1 ++ [Event.printed "\nSuggested commit message:"]
        match indexZeroText gen.2 with
        | Except.error e => (evs, Outcome.crashed e)
        | Except.ok txt =>
          let evs := evs ++
            [Event.printed ("\"\"\"\n" ++ txt ++ "\n\"\"\""), Event.readInput]
          if pyLower w.userInput == "y" then
            let cc := create_commit w txt
            (evs ++ cc.1, cc.2)
          else if pyLower w.userInput == "e" then
            match gen.2 with
            | MessageVal.apiContent _ =>
                -- f.write(commit_message) with a list argument raises TypeError
                (evs, Outcome.crashed "TypeError")
            | MessageVal.fallback s =>
                let evs := evs ++ [Event.writeEditMsg s]
                match w.commitEditResult with
                | ProcResult.ok _ => (evs ++ [Event.gitCommitEdit], Outcome.finished)
                | ProcResult.calledProcessError =>
                    (evs ++ [Event.gitCommitEdit], Outcome.crashed "CalledProcessError")
                | ProcResult.fileNotFoundError =>
                    (evs ++ [Event.gitCommitEdit], Outcome.crashed "FileNotFoundError")
          else
            (evs ++ [Event.printed "Commit cancelled"], Outcome.finished)

/-- C10: for the empty list the fallback generator still returns a value,
namely "Update 0 files"; as a total Lean function it is deterministic and
cannot fail. -/
theorem generate_fallback_message_empty :
    generate_fallback_message [] = "Update 0 files" := rfl

/-- C2: fallback output for a singleton and for other lengths.  The
function is pure (its only argument is the record list, no `World`), so it
performs no network access, and as a total Lean function it cannot fail. -/
theorem generate_fallback_message_spec (changes : List ChangeRecord) :
    (∀ c, changes = [c] → generate_fallback_message changes = "Update " ++ c.path) ∧
    (changes.length ≠ 1 →
      generate_fallback_message changes =
        "Update " ++ toString changes.length ++ " files") := by
  constructor
  · rintro c rfl
    rfl
  · intro h
    match changes with
    | [] => rfl
    | [c] => exact absurd rfl h
    | c1 :: c2 :: rest => rfl

/-- C2 witness: concrete instances of both branches. -/
theorem generate_fallback_message_spec_witness :
    generate_fallback_message [⟨"foo.txt", "", ""⟩] = "Update foo.txt" ∧
    generate_fallback_message [⟨"a", "", ""⟩, ⟨"b", "", ""⟩, ⟨"c", "", ""⟩] =
      "Update 3 files" := by
  refine ⟨?_, ?_⟩
  · exact (generate_fallback_message_spec [⟨"foo.txt", "", ""⟩]).1 ⟨"foo.txt", "", ""⟩ rfl
  · exact (generate_fallback_message_spec
      [⟨"a", "", ""⟩, ⟨"b", "", ""⟩, ⟨"c", "", ""⟩]).2 (by decide)

/-- The per-record section of the prompt as the spec describes it: the
path, the diff and the content of one record, in that order, each once. -/
def recordSection (c : ChangeRecord) : String :=
  "File: " ++ c.path ++ "\n"
  ++ "Diff:\n" ++ c.diff ++ "\n"
  ++ "Current file content:\n" ++ c.content ++ "\n\n"

/-- Concatenation of the per-record sections, one per record, in input
order. -/
def joinSections : List ChangeRecord → String
  | [] => ""
  | c :: rest => recordSection c ++ joinSections rest

/-- Modelled from the spec (section 4.2): fixed instruction header, then
for each ChangeRecord in input order its path, diff and content exactly
once, then the fixed closing instruction. -/
def build_prompt_spec (changes : List ChangeRecord) : String :=
  promptHeader ++ joinSections changes ++ promptFooter

theorem prompt_foldl_eq (l : List ChangeRecord) (init : String) :
    l.foldl
      (fun prompt c =>
        ((prompt ++ ("File: " ++ c.path ++ "\n"))
          ++ ("Diff:\n" ++ c.diff ++ "\n"))
          ++ ("Current file content:\n" ++ c.content ++ "\n\n"))
      init
    = init ++ joinSections l := by
  induction l generalizing init with
  | nil => exact (String.append_empty init).symm
  | cons c rest ih =>
      rw [List.foldl, ih]
      simp only [joinSections, recordSection, String.append_assoc]

/-- C3: for every non-empty input the Prompt Builder output decomposes as
the fixed header, then one section per record in input order carrying the
path, the diff and the content of that record exactly once, then the fixed
closing instruction; this is the spec-side builder `build_prompt_spec`. -/
theorem prepare_claude_prompt_spec (changes : List ChangeRecord)
    (_h : changes ≠ []) :
    prepare_claude_prompt changes = build_prompt_spec changes := by
  unfold prepare_claude_prompt build_prompt_spec
  rw [prompt_foldl_eq]

/-- C3 witness: a concrete two-record input. -/
theorem prepare_claude_prompt_spec_witness :
    ([⟨"a.txt", "dA", "cA"⟩, ⟨"b.txt", "dB", "cB"⟩] : List ChangeRecord) ≠ [] ∧
    prepare_claude_prompt [⟨"a.txt", "dA", "cA"⟩, ⟨"b.txt", "dB", "cB"⟩] =
      build_prompt_spec [⟨"a.txt", "dA", "cA"⟩, ⟨"b.txt", "dB", "cB"⟩] :=
  ⟨by decide,
   prepare_claude_prompt_spec [⟨"a.txt", "dA", "cA"⟩, ⟨"b.txt", "dB", "cB"⟩]
     (by decide)⟩

/-- `true` for events that spawn a version-control subprocess. -/
def isGitEvent : Event → Bool
  | Event.gitNameOnly => true
  | Event.gitDiff _ => true
  | Event.gitCommit _ => true
  | Event.gitCommitEdit => true
  | _ => false

/-- C4: with ANTHROPIC_API_KEY unset the program prints a diagnostic and
exits with code 1, and its trace contains no version-control subprocess
invocation. -/
theorem missing_api_key_exits_without_git (w : World) (h : w.apiKey = none) :
    (run w).2 = Outcome.exited 1 ∧
    (run w).1.all (fun e => !(isGitEvent e)) = true := by
  rw [run, h]
  exact ⟨rfl, rfl⟩

/-- A world with the key unset; the other fields are arbitrary. -/
def wNoKey : World :=
  { apiKey := none
    nameOnly := ProcResult.ok "foo.txt\n"
    diffOf := fun _ => ProcResult.ok "d"
    readFileResult := fun _ => some "c"
    apiResult := Except.ok [⟨"m"⟩]
    userInput := "y"
    commitResult := ProcResult.ok ""
    commitEditResult := ProcResult.ok "" }

/-- C4 witness. -/
theorem missing_api_key_exits_without_git_witness :
    wNoKey.apiKey = none ∧
    ((run wNoKey).2 = Outcome.exited 1 ∧
      (run wNoKey).1.all (fun e => !(isGitEvent e)) = true) :=
  ⟨rfl, missing_api_key_exits_without_git wNoKey rfl⟩

/-- C5: when the key is set and the staged-file listing succeeds but is
empty after filtering, the program exits with code 0 and its trace has no
network call, no commit invocation and no interactive-edit invocation. -/
theorem no_staged_changes_exits_zero (w : World) (out : String)
    (hkey : truthy w.apiKey = true)
    (hout : w.nameOnly = ProcResult.ok out)
    (hempty : (pySplitNl out).filter (fun f => f != "") = []) :
    (run w).2 = Outcome.exited 0 ∧
    (run w).1.all (fun e =>
      match e with
      | Event.apiCall _ => false
      | Event.gitCommit _ => false
      | Event.gitCommitEdit => false
      | _ => true) = true := by
  rw [run, hkey]
  rw [get_staged_changes, hout]
  simp only [hempty, collectLoop]
  exact ⟨rfl, rfl⟩

/-- A world where the key is set and nothing is staged. -/
def wNoStaged : World :=
  { apiKey := some "key"
    nameOnly := ProcResult.ok ""
    diffOf := fun _ => ProcResult.ok "d"
    readFileResult := fun _ => some "c"
    apiResult := Except.ok [⟨"m"⟩]
    userInput := "y"
    commitResult := ProcResult.ok ""
    commitEditResult := ProcResult.ok "" }

/-- C5 witness. -/
theorem no_staged_changes_exits_zero_witness :
    (truthy wNoStaged.apiKey = true ∧
      wNoStaged.nameOnly = ProcResult.ok "" ∧
      (pySplitNl "").filter (fun f => f != "") = []) ∧
    ((run wNoStaged).2 = Outcome.exited 0 ∧
      (run wNoStaged).1.all (fun e =>
        match e with
        | Event.apiCall _ => false
        | Event.gitCommit _ => false
        | Event.gitCommitEdit => false
        | _ => true) = true) :=
  ⟨⟨rfl, rfl, rfl⟩, no_staged_changes_exits_zero wNoStaged "" rfl rfl rfl⟩

/-- C7: whenever every per-file diff subprocess succeeds, the collection
loop succeeds regardless of file-read failures; it emits only the diff
subprocess events (nothing is printed, so no failure is surfaced), the
collected records carry the staged paths in order, and every record whose
on-disk read raised has the empty string as its content. -/
theorem content_read_failure_tolerated (w : World) (paths : List String)
    (dfn : String → String)
    (hdiff : ∀ p ∈ paths, w.diffOf p = ProcResult.ok (dfn p)) :
    ∃ changes,
      (collectLoop w paths).2 = CollectResult.ok changes ∧
      (collectLoop w paths).1 = paths.map Event.gitDiff ∧
      changes.map ChangeRecord.path = paths ∧
      ∀ c ∈ changes, w.readFileResult c.path = none → c.content = "" := by
  induction paths with
  | nil =>
      exact ⟨[], rfl, rfl, rfl, by intro c hc; cases hc⟩
  | cons p rest ih =>
      have hp : w.diffOf p = ProcResult.ok (dfn p) := hdiff p (List.mem_cons_self p rest)
      obtain ⟨cs, h2, h1, hpaths, hcontent⟩ :=
        ih (fun q hq => hdiff q (List.mem_cons_of_mem p hq))
      refine ⟨{ path := p, diff := dfn p, content := (w.readFileResult p).getD "" } :: cs,
        ?_, ?_, ?_, ?_⟩
      · simp [collectLoop, hp, h2]
      · simp [collectLoop, hp, h1]
      · simp [hpaths]
      · intro c hc hnone
        rcases List.mem_cons.mp hc with rfl | hc
        · simp only at hnone
          simp [hnone]
        · exact hcontent c hc hnone

/-- A world where every file read raises. -/
def wReadFail : World :=
  { apiKey := some "key"
    nameOnly := ProcResult.ok "foo.txt\n"
    diffOf := fun _ => ProcResult.ok "d"
    readFileResult := fun _ => none
    apiResult := Except.ok [⟨"m"⟩]
    userInput := "n"
    commitResult := ProcResult.ok ""
    commitEditResult := ProcResult.ok "" }

/-- C7 witness. -/
theorem content_read_failure_tolerated_witness :
    (∀ p ∈ ["foo.txt"], wReadFail.diffOf p = ProcResult.ok ((fun _ => "d") p)) ∧
    (∃ changes,
      (collectLoop wReadFail ["foo.txt"]).2 = CollectResult.ok changes ∧
      (collectLoop wReadFail ["foo.txt"]).1 = ["foo.txt"].map Event.gitDiff ∧
      changes.map ChangeRecord.path = ["foo.txt"] ∧
      ∀ c ∈ changes, wReadFail.readFileResult c.path = none → c.content = "") :=
  ⟨fun _ _ => rfl,
   content_read_failure_tolerated wReadFail ["foo.txt"] (fun _ => "d") (fun _ _ => rfl)⟩

/-- Key set, one staged file foo.txt, remote call raises, user would type
y at the confirmation prompt. -/
def wApiFail : World :=
  { apiKey := some "key"
    nameOnly := ProcResult.ok "foo.txt\n"
    diffOf := fun _ => ProcResult.ok "diff-foo"
    readFileResult := fun _ => some "content-foo"
    apiResult := Except.error "network unreachable"
    userInput := "y"
    commitResult := ProcResult.ok ""
    commitEditResult := ProcResult.ok "" }

/-- C1: with one staged change and a failing remote call, the fallback
string for that change is "Update foo.txt", but `run` raises
AttributeError evaluating the subscript of the fallback string before
displaying it: the execution ends in a crash, no commit is invoked and
the confirmation prompt is never reached, so the final message never
equals the fallback output. -/
theorem api_failure_crashes_before_fallback :
    generate_fallback_message [⟨"foo.txt", "diff-foo", "content-foo"⟩] =
      "Update foo.txt" ∧
    (run wApiFail).2 = Outcome.crashed "AttributeError" ∧
    (run wApiFail).1.all (fun e =>
      match e with
      | Event.gitCommit _ => false
      | Event.readInput => false
      | _ => true) = true :=
  ⟨rfl, rfl, rfl⟩

/-- Key set, git reports a nonzero exit on the staged-files query. -/
def wNotARepo : World :=
  { apiKey := some "key"
    nameOnly := ProcResult.calledProcessError
    diffOf := fun _ => ProcResult.ok "d"
    readFileResult := fun _ => some "c"
    apiResult := Except.ok [⟨"m"⟩]
    userInput := "y"
    commitResult := ProcResult.ok ""
    commitEditResult := ProcResult.ok "" }

/-- Key set, the git executable itself is missing. -/
def wGitMissing : World :=
  { wNotARepo with nameOnly := ProcResult.fileNotFoundError }

/-- C8: when the staged-changes query exits nonzero (not a repository)
the handler prints a short message and exits 1, as claimed; but when the
git executable is missing the subprocess module raises FileNotFoundError,
which the handler for CalledProcessError does not catch: the run ends in
an uncaught exception (interpreter traceback) and the program prints no
user-facing message at all. -/
theorem repository_error_handling :
    run wNotARepo =
      ([Event.gitNameOnly,
        Event.printed "Error: Not a git repository or git is not installed"],
       Outcome.exited 1) ∧
    (run wGitMissing).2 = Outcome.crashed "FileNotFoundError" ∧
    (run wGitMissing).1.all (fun e =>
      match e with
      | Event.printed _ => false
      | _ => true) = true :=
  ⟨rfl, rfl, rfl⟩

/-- Key set, one staged file, generation succeeds with one content block,
user types e at the confirmation prompt. -/
def wEdit : World :=
  { apiKey := some "key"
    nameOnly := ProcResult.ok "foo.txt\n"
    diffOf := fun _ => ProcResult.ok "d"
    readFileResult := fun _ => some "c"
    apiResult := Except.ok [⟨"Generated message"⟩]
    userInput := "e"
    commitResult := ProcResult.ok ""
    commitEditResult := ProcResult.ok "" }

/-- C9: on Edit after a successful generation, `f.write(commit_message)`
receives the content-block list rather than the message text and raises
TypeError: the scratch file is never written and the interactive-edit
commit command is never invoked. -/
theorem edit_path_type_error :
    (run wEdit).2 = Outcome.crashed "TypeError" ∧
    (run wEdit).1.all (fun e =>
      match e with
      | Event.writeEditMsg _ => false
      | Event.gitCommitEdit => false
      | _ => true) = true :=
  ⟨rfl, rfl⟩

/-- The commit message passed to `git commit -m`, when the event is a
commit invocation. -/
def commitArg : Event → Option String
  | Event.gitCommit m => some m
  | _ => none

theorem collectLoop_commitArgs (w : World) (ps : List String) :
    (collectLoop w ps).1.filterMap commitArg = [] := by
  induction ps with
  | nil => rfl
  | cons p rest ih =>
      cases h : w.diffOf p with
      | ok d => simp [collectLoop, h, commitArg, ih]
      | calledProcessError => simp [collectLoop, h, commitArg]
      | fileNotFoundError => simp [collectLoop, h, commitArg]

theorem get_staged_changes_commitArgs (w : World) :
    (get_staged_changes w).1.filterMap commitArg = [] := by
  cases h : w.nameOnly with
  | ok out => simp [get_staged_changes, h, commitArg, collectLoop_commitArgs]
  | calledProcessError => simp [get_staged_changes, h, commitArg]
  | fileNotFoundError => simp [get_staged_changes, h, commitArg]

/-- C6 counterexample: a world whose confirmation input is y but whose
generation step failed.  The claim as stated requires the commit command
to run exactly once with the fallback message; instead the trace contains
no commit invocation at all, because the run crashed before the
confirmation prompt. -/
theorem accept_after_failed_generation_no_commit :
    wApiFail.userInput = "y" ∧
    (run wApiFail).1.filterMap commitArg = [] ∧
    (run wApiFail).2 = Outcome.crashed "AttributeError" :=
  ⟨rfl, rfl, rfl⟩

/-- C6 amended: when the remote call succeeded with a non-empty content
list and the confirmation input lowercases to y, the commit command is
invoked exactly once, and its single message argument is exactly the text
of the first returned content block (the string the generation step
produced and displayed).  When generation failed the program crashes
before reading any confirmation, so no commit occurs (see C1). -/
theorem accept_commits_generated_message_once (w : World)
    (changes : List ChangeRecord) (b : ContentBlock) (bs : List ContentBlock)
    (hkey : truthy w.apiKey = true)
    (hstaged : (get_staged_changes w).2 = CollectResult.ok changes)
    (hne : changes ≠ [])
    (happy : w.apiResult = Except.ok (b :: bs))
    (hy : pyLower w.userInput = "y") :
    (run w).1.filterMap commitArg = [b.text] := by
  have hemp : changes.isEmpty = false := by
    cases changes with
    | nil => exact absurd rfl hne
    | cons c cs => rfl
  rw [run, hkey]
  simp only [Bool.not_true, Bool.false_eq_true, if_false, hstaged, hemp,
    get_commit_message_from_claude, happy, indexZeroText, hy]
  cases hc : w.commitResult with
  | ok out =>
      simp [create_commit, hc, List.filterMap_append, commitArg,
        get_staged_changes_commitArgs]
  | calledProcessError =>
      simp [create_commit, hc, List.filterMap_append, commitArg,
        get_staged_changes_commitArgs]
  | fileNotFoundError =>
      simp [create_commit, hc, List.filterMap_append, commitArg,
        get_staged_changes_commitArgs]

/-- Key set, one staged file, generation succeeds with one content block,
user types y at the confirmation prompt. -/
def wApiOk : World :=
  { apiKey := some "key"
    nameOnly := ProcResult.ok "foo.txt\n"
    diffOf := fun _ => ProcResult.ok "d"
    readFileResult := fun _ => some "c"
    apiResult := Except.ok [⟨"Generated message"⟩]
    userInput := "y"
    commitResult := ProcResult.ok ""
    commitEditResult := ProcResult.ok "" }

/-- C6 witness. -/
theorem accept_commits_generated_message_once_witness :
    (truthy wApiOk.apiKey = true ∧
      (get_staged_changes wApiOk).2 = CollectResult.ok [⟨"foo.txt", "d", "c"⟩] ∧
      ([⟨"foo.txt", "d", "c"⟩] : List ChangeRecord) ≠ [] ∧
      wApiOk.apiResult = Except.ok [⟨"Generated message"⟩] ∧
      pyLower wApiOk.userInput = "y") ∧
    (run wApiOk).1.filterMap commitArg = ["Generated message"] :=
  ⟨⟨rfl, rfl, by decide, rfl, rfl⟩,
   accept_commits_generated_message_once wApiOk [⟨"foo.txt", "d", "c"⟩]
     ⟨"Generated message"⟩ [] rfl rfl (by decide) rfl rfl⟩
